import Mathlib

/-
Verification of the SpiralLogic emoji compiler (spirallogic_emoji_bridge.py)
and the basic line interpreter (spirallogic_cli.py), as a shallow embedding.

Strings are modelled as Lean `String` (a structure over `List Char`); Python
string primitives (find, rfind, slicing with negative indices, strip, replace,
split) are modelled below with Python's exact index conventions.  Unicode NFC
normalization (`unicodedata.normalize('NFC', s)`) is modelled as the identity:
every string manipulated by these programs (emoji tables, generated ritual
text) is already NFC-normal and NFC is idempotent, so normalization never
changes a value that reaches it in the modelled code paths.
-/

namespace SpiralLogic

/-- First index at which `needle` occurs as a contiguous sublist of `hay`,
`none` when it does not occur.  Mirrors Python `str.find` (which returns the
index or -1); the empty needle occurs at index 0, as in Python. -/
def findSubIdx (needle : List Char) : List Char → Option Nat
  | [] => if needle = [] then some 0 else none
  | c :: t =>
    if needle.isPrefixOf (c :: t) then some 0
    else (findSubIdx needle t).map (· + 1)

/-- Python `needle in hay` substring test. -/
def containsSub (hay needle : String) : Bool :=
  (findSubIdx needle.data hay.data).isSome

/-- Python `hay.find(needle)`: first index, or -1 when absent. -/
def pyFind (hay needle : String) : Int :=
  match findSubIdx needle.data hay.data with
  | some i => (i : Int)
  | none => -1

/-- Python `hay.rfind(c)` for a single character: last index, or -1. -/
def pyRFindChar (hay : String) (c : Char) : Int :=
  match hay.data.reverse.findIdx? (fun x => x = c) with
  | some j => ((hay.data.length - 1 - j : Nat) : Int)
  | none => -1

/-- Normalize a Python slice bound for a sequence of length `len`:
negative indices count from the end (clamped at 0), positive ones are
clamped at `len`. -/
def normSliceIdx (len : Nat) (i : Int) : Nat :=
  if i < 0 then ((len : Int) + i).toNat else min i.toNat len

/-- Python slice `l[start:stop]` on a list of characters. -/
def pySliceList (l : List Char) (start stop : Int) : List Char :=
  let s := normSliceIdx l.length start
  let e := normSliceIdx l.length stop
  (l.drop s).take (e - s)

/-- Python slice `s[start:stop]` on a string. -/
def pySlice (s : String) (start stop : Int) : String :=
  String.mk (pySliceList s.data start stop)

/-- Python `hay.find(needle, start)`: search from `start` (a Python index),
returning an absolute index or -1. -/
def pyFindFrom (hay needle : String) (start : Int) : Int :=
  let s := normSliceIdx hay.data.length start
  match findSubIdx needle.data (hay.data.drop s) with
  | some i => ((s + i : Nat) : Int)
  | none => -1

/-- Whitespace trimming of a character list from both ends
(Python `str.strip()` with no arguments). -/
def trimList (l : List Char) : List Char :=
  ((l.dropWhile Char.isWhitespace).reverse.dropWhile Char.isWhitespace).reverse

/-- Python `s.strip()`. -/
def pyStrip (s : String) : String :=
  String.mk (trimList s.data)

/-- Python `s.strip(chars)`: trim any of the given characters from both ends. -/
def pyStripSet (s : String) (cs : List Char) : String :=
  String.mk
    (((s.data.dropWhile (fun c => cs.contains c)).reverse.dropWhile
      (fun c => cs.contains c)).reverse)

/-- Python `s.startswith(p)`. -/
def strStartsWith (s p : String) : Bool :=
  p.data.isPrefixOf s.data

/-- Python `s.endswith(p)`. -/
def strEndsWith (s p : String) : Bool :=
  p.data.isSuffixOf s.data

/-- Left-to-right non-overlapping replacement of `pat` by `rep`, fuelled by
the number of remaining characters (each step consumes at least one
character, so fuel equal to the list length always suffices). -/
def replaceGo (pat rep : List Char) : Nat → List Char → List Char
  | _, [] => []
  | 0, s => s
  | fuel + 1, c :: t =>
    if pat ≠ [] ∧ pat.isPrefixOf (c :: t) then
      rep ++ replaceGo pat rep fuel ((c :: t).drop pat.length)
    else
      c :: replaceGo pat rep fuel t

/-- Python `s.replace(pat, rep)` on character lists, including Python's
empty-pattern behavior (`rep` is inserted around every character). -/
def replaceAllList (s pat rep : List Char) : List Char :=
  if pat = [] then rep ++ s.flatMap (fun c => c :: rep)
  else replaceGo pat rep s.length s

/-- Python `s.replace(pat, rep)` on strings. -/
def replaceAllStr (s pat rep : String) : String :=
  String.mk (replaceAllList s.data pat.data rep.data)

/-- Python `s.split(sep)` for a single separator character, on character
lists: the (possibly empty) segments between separators. -/
def splitOnCharList (sep : Char) : List Char → List (List Char)
  | [] => [[]]
  | c :: t =>
    let rest := splitOnCharList sep t
    if c = sep then [] :: rest
    else (c :: rest.headD []) :: rest.tail

/-- Python `content.split(chr(10))`: split a string into its lines. -/
def splitLinesNl (s : String) : List String :=
  (splitOnCharList '\n' s.data).map String.mk

/-- Split at the first occurrence of `sep`: the part before it, and
(when `sep` occurs) the part after it.  Mirrors Python `s.split(sep, 1)`. -/
def splitFirst (l : List Char) (sep : Char) : List Char × Option (List Char) :=
  let before := l.takeWhile (fun c => c ≠ sep)
  match l.dropWhile (fun c => c ≠ sep) with
  | [] => (before, none)
  | _ :: t => (before, some t)

/-! ### Emoji compiler (spirallogic_emoji_bridge.py) -/

/-- One character of the regex character class
`[\U0001F600-\U0001F64F\U0001F300-\U0001F5FF\U0001F680-\U0001F6FF`
`\U0001F1E0-\U0001F1FF\U00002702-\U000027B0\U000024C2-\U0001F251]`
used by `parse_emoji_spine`, range by range in source order. -/
def isEmojiChar (c : Char) : Bool :=
  let n := c.toNat
  (0x1F600 ≤ n ∧ n ≤ 0x1F64F) ∨ (0x1F300 ≤ n ∧ n ≤ 0x1F5FF) ∨
  (0x1F680 ≤ n ∧ n ≤ 0x1F6FF) ∨ (0x1F1E0 ≤ n ∧ n ≤ 0x1F1FF) ∨
  (0x2702 ≤ n ∧ n ≤ 0x27B0) ∨ (0x24C2 ≤ n ∧ n ≤ 0x1F251)

/-- Maximal runs of class characters, accumulating the current run in
reverse; models `re.findall(r'[class]+', s)`, which returns the maximal
contiguous groups matched by the `+` quantifier. -/
def emojiRunsAux : List Char → List Char → List (List Char)
  | [], cur => if cur.isEmpty then [] else [cur.reverse]
  | c :: cs, cur =>
    if isEmojiChar c then emojiRunsAux cs (c :: cur)
    else if cur.isEmpty then emojiRunsAux cs []
    else cur.reverse :: emojiRunsAux cs []

/-- The list `emojis` computed by `parse_emoji_spine` via `re.findall`. -/
def emojiRuns (s : String) : List String :=
  (emojiRunsAux s.data []).map String.mk

/-- `EmojiSpine` dataclass: anchor, body, tempo, intent. -/
structure EmojiSpine where
  anchor : String
  body : String
  tempo : String
  intent : String
deriving DecidableEq, Repr

/-- `self.spine_anchors` table. -/
def spine_anchors : List (String × String) :=
  [("❤️", "love"), ("🔥", "anger"), ("💧", "grief"), ("🌞", "joy"),
   ("🕷️", "fear"), ("🧊", "dissociation"), ("🪄", "hope"),
   ("❓", "confusion"), ("🙈", "shame"), ("🪨", "resolve")]

/-- `self.spine_tempo` table. -/
def spine_tempo : List (String × String) :=
  [("⚡", "urgent"), ("🚨", "crisis"), ("🐎", "normal"),
   ("🌊", "flowing"), ("🐢", "slow"), ("🧘", "sacred")]

/-- `self.spine_intent` table. -/
def spine_intent : List (String × String) :=
  [("🗯️", "speak_truth"), ("🆘", "need_help"), ("✨", "connect"),
   ("🛑", "set_boundary"), ("🔓", "reclaim_power")]

/-- Python `dict.get(k, d)` on an insertion-ordered association list. -/
def dictGetD {α : Type} (m : List (String × α)) (k : String) (d : α) : α :=
  match m.find? (fun p => p.1 == k) with
  | some p => p.2
  | none => d

/-- Python `m[k] = v` on an insertion-ordered association list: replace the
value in place when the key exists, otherwise append. -/
def dictSet {α : Type} (m : List (String × α)) (k : String) (v : α) :
    List (String × α) :=
  if m.any (fun p => p.1 == k) then
    m.map (fun p => if p.1 == k then (k, v) else p)
  else m ++ [(k, v)]

/-- Python `e in self.spine_anchors` (dict-key membership). -/
def isAnchorKey (e : String) : Bool :=
  spine_anchors.any (fun p => p.1 == e)

/-- Python `e in self.spine_tempo`. -/
def isTempoKey (e : String) : Bool :=
  spine_tempo.any (fun p => p.1 == e)

/-- Python `e in self.spine_intent`. -/
def isIntentKey (e : String) : Bool :=
  spine_intent.any (fun p => p.1 == e)

/-- `SpiralLogicEmojiCompiler.parse_emoji_spine`: extract the emoji runs,
fail below 3, else take the first run that is a key of each category table
(with fixed defaults) and the constant body `🧠`. -/
def parse_emoji_spine (s : String) : Option EmojiSpine :=
  let emojis := emojiRuns s
  if emojis.length < 3 then none
  else some
    { anchor := ((emojis.find? isAnchorKey).getD "❓")
      body := "🧠"
      tempo := ((emojis.find? isTempoKey).getD "🐎")
      intent := ((emojis.find? isIntentKey).getD "✨") }

/-- The local `emotion_map` of `EmojiSpine.to_spirallogic`. -/
def emotion_map : List (String × String) :=
  [("❤️", "love"), ("🔥", "anger"), ("💧", "grief"), ("🌞", "joy"),
   ("🕷️", "fear"), ("🧊", "dissociation"), ("🪄", "hope"),
   ("❓", "confusion"), ("🙈", "shame"), ("🪨", "resolve")]

/-- The local `tempo_map` of `EmojiSpine.to_spirallogic`. -/
def tempo_map : List (String × String) :=
  [("⚡", "urgent"), ("🚨", "crisis"), ("🐎", "normal"),
   ("🌊", "flowing"), ("🐢", "slow"), ("🧘", "sacred")]

/-- The local `intent_map` of `EmojiSpine.to_spirallogic`. -/
def intent_map : List (String × String) :=
  [("🗯️", "speak_truth"), ("🆘", "need_help"), ("✨", "connect"),
   ("🛑", "set_boundary"), ("🔓", "reclaim_power")]

/-- `EmojiSpine.to_spirallogic`: render the spine as an assignment line. -/
def EmojiSpine.to_spirallogic (sp : EmojiSpine) : String :=
  let emotion := dictGetD emotion_map sp.anchor "unknown"
  let speed := dictGetD tempo_map sp.tempo "normal"
  let action := dictGetD intent_map sp.intent "process"
  "user.emotional_state = \"" ++ emotion ++ "\"; user.tempo = \"" ++ speed ++
    "\"; user.intent = \"" ++ action ++ "\""

/-- `SpiralLogicEmojiCompiler._contains_emojis`. -/
def contains_emojis (text : String) (emojiList : List String) : Bool :=
  emojiList.any (fun e => containsSub text e)

/-- `SpiralLogicEmojiCompiler._compile_voice_invocation`. -/
def compile_voice_invocation (emojiLine : String) : String :=
  if containsSub emojiLine "💔" then "@healer.support_grief()"
  else if containsSub emojiLine "😊" then "@sage.share_wisdom()"
  else if containsSub emojiLine "😰" then "@protector.provide_safety()"
  else if containsSub emojiLine "😡" then "@mirror.transform_anger()"
  else "@healer.assess(user.emotional_state)"

/-- `SpiralLogicEmojiCompiler._compile_conditional`. -/
def compile_conditional (emojiLine : String) : String :=
  if containsSub emojiLine "😰" ∧ containsSub emojiLine "🛡️" then
    "if user.emotional_state == \"anxiety\" \x7b @protector.activate_safety() \x7d"
  else if containsSub emojiLine "😢" ∧ containsSub emojiLine "🧘" then
    "if user.emotional_state == \"sadness\" \x7b sacred_pause.engage() \x7d"
  else if containsSub emojiLine "🤯" then
    "if user.bandwidth.current() < 0.3 \x7b sacred_pause.mandatory() \x7d"
  else
    "if user.needs_support \x7b @healer.respond() \x7d"

/-- `SpiralLogicEmojiCompiler._compile_sacred_pause`. -/
def compile_sacred_pause (emojiLine : String) : String :=
  if containsSub emojiLine "🛑" then
    "sacred_pause.mandatory \x7b purpose: \"Emotional overload protection\" \x7d"
  else
    "sacred_pause.offer \x7b purpose: \"Processing time\" \x7d"

/-- `SpiralLogicEmojiCompiler._compile_consent`. -/
def compile_consent (emojiLine : String) : String :=
  if containsSub emojiLine "✅" then "consent.grant(\"emotional_support\")"
  else if containsSub emojiLine "❌" then "consent.deny(\"deep_processing\")"
  else "consent.check(\"emotional_support\")"

/-- `SpiralLogicEmojiCompiler._compile_spiral_phase`. -/
def compile_spiral_phase (emojiLine : String) : String :=
  if containsSub emojiLine "👁️" then
    "look_in \x7b @healer.assess(user.current_state) \x7d"
  else if containsSub emojiLine "🌊" then
    "spiral_up \x7b @healer.guide_processing() \x7d"
  else if containsSub emojiLine "🕊️" then
    "flow_out \x7b @healer.support_integration() \x7d"
  else "// Spiral phase marker"

/-- `SpiralLogicEmojiCompiler.compile_emoji_line`: strip (and NFC-normalize,
modelled as the identity), try the spine first, then the fixed chain of
glyph-presence branches, else the generic echo statement. -/
def compile_emoji_line (line : String) : String :=
  let emojiLine := pyStrip line
  match parse_emoji_spine emojiLine with
  | some spine => spine.to_spirallogic
  | none =>
    if contains_emojis emojiLine ["🏰", "🧠"] then
      compile_voice_invocation emojiLine
    else if contains_emojis emojiLine ["💭", "➡️"] then
      compile_conditional emojiLine
    else if contains_emojis emojiLine ["⏸️", "🛑"] then
      compile_sacred_pause emojiLine
    else if contains_emojis emojiLine ["📋", "✅", "❌"] then
      compile_consent emojiLine
    else if containsSub emojiLine "🌀" then
      compile_spiral_phase emojiLine
    else
      "output.print(\"Emoji expression: " ++ emojiLine ++ "\")"

/-- `SpiralLogicEmojiCompiler.compile_emoji_ritual`: fixed ritual template
around one compiled statement per non-blank input line, with the intent
derived from the spine of the first line. -/
def compile_emoji_ritual (emojiCode : String) : String :=
  let lines := splitLinesNl (pyStrip emojiCode)
  let firstLine := lines.headD ""
  let spine := parse_emoji_spine firstLine
  let intentDesc :=
    match spine with
    | some sp =>
      "Process " ++ dictGetD spine_anchors sp.anchor "stable" ++ " with " ++
        dictGetD spine_intent sp.intent "support"
    | none => "Emoji-driven emotional processing"
  let header : List String :=
    ["ritual.emoji_session \x7b",
     "    intent: \"" ++ intentDesc ++ "\",",
     "    participants: [user, @healer],",
     "    consent: \x7b required: [\"emotional_support\"] \x7d",
     "\x7d",
     "",
     "execute \x7b"]
  let body : List String :=
    lines.foldr
      (fun line acc =>
        if pyStrip line = "" then acc
        else
          let compiledLine := compile_emoji_line line
          if compiledLine = "" then acc else ("    " ++ compiledLine) :: acc)
      []
  let closing : List String :=
    ["\x7d",
     "",
     "complete \x7b",
     "    @healer.honor_completion()",
     "\x7d"]
  String.intercalate "\n" (header ++ body ++ closing)

/-! ### Basic line interpreter (spirallogic_cli.py, BasicSpiralLogicInterpreter)

The interpreter object's mutable fields (`self.vars`,
`self.consent_status`, `self.output_buffer`) are threaded explicitly as a
state record.  The process's standard input consumed by Python's `input()`
is modelled as a list of pending response lines carried in the same record;
`input()` on an exhausted stream raises `EOFError` (message
`"EOF when reading a line"`), the one exception reachable in
`_execute_line`.  Console printing (and the NFC normalization / ASCII
fallback of `_print`) has no effect on the returned data beyond the buffer
append and is not modelled further. -/

/-- The mutable state of a `BasicSpiralLogicInterpreter`, plus the modelled
stdin stream. -/
structure InterpState where
  vars : List (String × String)
  consent_status : List (String × Bool)
  output_buffer : List String
  stdin : List String
deriving DecidableEq, Repr

/-- `BasicSpiralLogicInterpreter.__init__`: all fields start empty
(`options` is never consulted by the modelled code paths). -/
def initState (stdin : List String) : InterpState :=
  { vars := [], consent_status := [], output_buffer := [], stdin := stdin }

/-- The dictionary returned by `run`: on success the keys `success`,
`output`, `vars`; on failure the keys `success`, `error`, `output`
(no `vars` key, hence `none`). -/
structure RunResult where
  success : Bool
  error : Option String
  output : List String
  vars : Option (List (String × String))
deriving DecidableEq, Repr

/-- `BasicSpiralLogicInterpreter._print`: append to the output buffer. -/
def printMsg (st : InterpState) (message : String) : InterpState :=
  { st with output_buffer := st.output_buffer ++ [message] }

/-- `BasicSpiralLogicInterpreter._substitute_variables`: for each bound
variable in insertion order, replace the brace-wrapped placeholder form and
then any bare occurrence of the name by the value. -/
def substituteVariables (vars : List (String × String)) (text : String) :
    String :=
  vars.foldl
    (fun t p =>
      let placeholder := "\x7b" ++ p.1 ++ "\x7d"
      let t1 := if containsSub t placeholder then replaceAllStr t placeholder p.2 else t
      if containsSub t1 p.1 then replaceAllStr t1 p.1 p.2 else t1)
    text

/-- The quote-stripping step of `_extract_string_arg` and
`_handle_assignment`: drop one double or single quote from both ends when
both are present. -/
def stripQuotes (arg : String) : String :=
  if strStartsWith arg "\"" ∧ strEndsWith arg "\"" then pySlice arg 1 (-1)
  else if strStartsWith arg "'" ∧ strEndsWith arg "'" then pySlice arg 1 (-1)
  else arg

/-- `BasicSpiralLogicInterpreter._extract_string_arg`: slice between the
first `function(` and the last `)` (Python index conventions, so -1 when
the parenthesis is absent), strip, unquote, substitute vars. -/
def extractStringArg (vars : List (String × String)) (line function : String) :
    String :=
  let needle := function ++ "("
  let start : Int := pyFind line needle + (needle.data.length : Int)
  let stop : Int := pyRFindChar line ')'
  let arg := pyStrip (pySlice line start stop)
  substituteVariables vars (stripQuotes arg)

/-- `BasicSpiralLogicInterpreter._handle_voice_speak`. -/
def handleVoiceSpeak (st : InterpState) (line : String) : InterpState :=
  let voice :=
    if containsSub line "@healer" then "Healer"
    else if containsSub line "@sage" then "Sage"
    else if containsSub line "@mirror" then "Mirror"
    else "Voice"
  if containsSub line "message:" then
    let start : Int := pyFind line "message:" + 8
    let stop : Int :=
      if containsSub (pySlice line start (line.data.length : Int)) "," then
        pyFindFrom line "," start
      else pyFindFrom line "\x7d" start
    let stop : Int := if stop = -1 then (line.data.length : Int) else stop
    let message := pyStrip (pySlice line start stop)
    let message := pyStripSet message ['"', Char.ofNat 39]
    let message := substituteVariables st.vars message
    printMsg st (voice ++ ": " ++ message)
  else
    printMsg st (voice ++ " speaks")

/-- `BasicSpiralLogicInterpreter._handle_input_ask`: read one stdin line
(EOFError when the stream is exhausted); when the line contains `=`, bind
the identifier before the first `=` to the raw response. -/
def handleInputAsk (st : InterpState) (line : String) :
    Except String InterpState :=
  let _prompt := extractStringArg st.vars line "input.ask"
  match st.stdin with
  | [] => .error "EOF when reading a line"
  | response :: rest =>
    let st := { st with stdin := rest }
    if containsSub line "=" then
      let varName := pyStrip (String.mk (line.data.takeWhile (fun c => c ≠ '=')))
      .ok { st with vars := dictSet st.vars varName response }
    else .ok st

/-- `BasicSpiralLogicInterpreter._handle_consent`: `consent.check` reports
by table lookup defaulting to granted; `consent.request` auto-grants. -/
def handleConsent (st : InterpState) (line : String) : InterpState :=
  if containsSub line "consent.check(" then
    let domain := extractStringArg st.vars line "consent.check"
    let granted := dictGetD st.consent_status domain true
    printMsg st ("Checking consent for '" ++ domain ++ "': " ++
      (if granted then "Granted" else "Denied"))
  else if containsSub line "consent.request(" then
    let domain := extractStringArg st.vars line "consent.request"
    let st := { st with consent_status := dictSet st.consent_status domain true }
    printMsg st ("Requesting consent for '" ++ domain ++ "': Granted")
  else st

/-- `BasicSpiralLogicInterpreter._handle_sacred_pause`. -/
def handleSacredPause (st : InterpState) (line : String) : InterpState :=
  if containsSub line "sacred_pause.offer" then
    printMsg st "Sacred pause offered - taking a moment..."
  else if containsSub line "sacred_pause.engage" then
    printMsg st "Sacred pause engaged - restoring emotional bandwidth..."
  else st

/-- `BasicSpiralLogicInterpreter._handle_assignment`: split at the first
`=`, strip both sides, unquote the value, bind. -/
def handleAssignment (st : InterpState) (line : String) : InterpState :=
  match splitFirst line.data '=' with
  | (_, none) => st
  | (before, some after) =>
    let varName := pyStrip (String.mk before)
    let varValue := stripQuotes (pyStrip (String.mk after))
    { st with vars := dictSet st.vars varName varValue }

/-- `BasicSpiralLogicInterpreter._execute_line`: the fixed, ordered
substring-dispatch chain.  The only reachable exception is the `EOFError`
of `input.ask` on exhausted stdin. -/
def executeLine (st : InterpState) (line : String) : Except String InterpState :=
  if containsSub line "output.print(" then
    .ok (printMsg st (extractStringArg st.vars line "output.print"))
  else if containsSub line "@" && containsSub line ".speak" then
    .ok (handleVoiceSpeak st line)
  else if containsSub line "input.ask(" then
    handleInputAsk st line
  else if containsSub line "consent." then
    .ok (handleConsent st line)
  else if containsSub line "sacred_pause." then
    .ok (handleSacredPause st line)
  else if containsSub line "=" && !(strEndsWith (pyStrip line) "\x7b") then
    .ok (handleAssignment st line)
  else if strStartsWith line "ritual." then
    .ok (printMsg st ("Starting ritual: " ++ line))
  else if line = "execute \x7b" then
    .ok (printMsg st "Executing ritual...")
  else if line = "complete \x7b" then
    .ok (printMsg st "Completing ritual...")
  else if line = "look_in \x7b" ∨ line = "spiral_up \x7b" ∨ line = "flow_out \x7b" then
    .ok (printMsg st ("Entering " ++ replaceAllStr line " \x7b" "" ++ " phase"))
  else
    .ok st

/-- The enumerated loop body of `BasicSpiralLogicInterpreter.run`: strip
each line, skip blanks and `//` comments, execute the rest in order with
1-based numbering, converting the first exception into the failure
dictionary (which omits the `vars` key). -/
def runAux (st : InterpState) : List String → Nat → RunResult × InterpState
  | [], _ =>
    ({ success := true, error := none, output := st.output_buffer,
       vars := some st.vars }, st)
  | l :: ls, n =>
    let line := pyStrip l
    if line = "" ∨ strStartsWith line "//" then runAux st ls (n + 1)
    else
      match executeLine st line with
      | .ok st' => runAux st' ls (n + 1)
      | .error e =>
        ({ success := false,
           error := some ("Line " ++ toString n ++ ": " ++ e),
           output := st.output_buffer, vars := none }, st)

/-- `BasicSpiralLogicInterpreter.run`: split the program into lines and
execute them; also returns the interpreter state after the call (the
object's fields, which `run` never re-initializes). -/
def run (st : InterpState) (content : String) : RunResult × InterpState :=
  runAux st (splitLinesNl content) 1

/-! ### Specification-side definitions

These definitions follow the wording of the specification (an ordered
first-match branch list for `compileLine`, and a first-failure
characterization of `run`); the theorems below compare them with the
definitions translated from the source. -/

/-- First satisfied branch wins; later branches are never consulted.
Follows the spec's description of `compileLine` as "an ordered chain of
substring-presence checks ... the first satisfied branch wins". -/
def firstMatch (branches : List ((String → Bool) × (String → String)))
    (line : String) (dflt : String) : String :=
  match branches with
  | [] => dflt
  | (p, h) :: rest => if p line then h line else firstMatch rest line dflt

/-- The spec's ordered branch list for `compileLine` after the spine
attempt: voice-invocation glyphs, conditional glyphs, pause glyphs,
consent glyphs, spiral-phase glyph. -/
def compileBranches : List ((String → Bool) × (String → String)) :=
  [(fun l => contains_emojis l ["🏰", "🧠"], compile_voice_invocation),
   (fun l => contains_emojis l ["💭", "➡️"], compile_conditional),
   (fun l => contains_emojis l ["⏸️", "🛑"], compile_sacred_pause),
   (fun l => contains_emojis l ["📋", "✅", "❌"], compile_consent),
   (fun l => containsSub l "🌀", compile_spiral_phase)]

/-- `compileLine` as the spec words it: spine parse first, then the ordered
branch chain with first-match semantics, else the generic echo. -/
def compileLineSpec (line : String) : String :=
  let l := pyStrip line
  match parse_emoji_spine l with
  | some spine => spine.to_spirallogic
  | none =>
    firstMatch compileBranches l ("output.print(\"Emoji expression: " ++ l ++ "\")")

/-- Executing a list of numbered lines up to the first failure: either the
final state, or the 1-based number of the failing line, the exception
message, and the state accumulated by the prior lines (which the failing
line has not modified).  Follows the spec's description of `run`. -/
def execLinesSpec (st : InterpState) :
    List String → Nat → Except (Nat × String × InterpState) InterpState
  | [], _ => .ok st
  | l :: ls, n =>
    let line := pyStrip l
    if line = "" ∨ strStartsWith line "//" then execLinesSpec st ls (n + 1)
    else
      match executeLine st line with
      | .ok st' => execLinesSpec st' ls (n + 1)
      | .error e => .error (n, e, st)

/-! ### Helper lemmas -/

/-- The run count never exceeds the number of characters matched by the
emoji character class (each run contains at least one matched character). -/
theorem emojiRunsAux_length_le (cs : List Char) :
    ∀ cur, (emojiRunsAux cs cur).length ≤
      (cs.filter isEmojiChar).length + (if cur.isEmpty then 0 else 1) := by
  induction cs with
  | nil =>
    intro cur
    cases cur <;> simp [emojiRunsAux]
  | cons c cs ih =>
    intro cur
    by_cases hc : isEmojiChar c
    · have h := ih (c :: cur)
      simp only [emojiRunsAux, hc, if_true, List.filter_cons, List.isEmpty_cons] at *
      cases cur with
      | nil => simp_all
      | cons e es => simp_all; omega
    · cases cur with
      | nil =>
        have h := ih []
        simp only [emojiRunsAux, hc, List.filter_cons] at *
        simp_all
      | cons d ds =>
        have h := ih []
        simp only [emojiRunsAux, hc, List.filter_cons, List.isEmpty_cons] at *
        simp_all

/-- Run count bound, at the level of `emojiRuns`. -/
theorem emojiRuns_length_le (s : String) :
    (emojiRuns s).length ≤ (s.data.filter isEmojiChar).length := by
  have h := emojiRunsAux_length_le s.data []
  simpa [emojiRuns] using h

/-! ### Claim theorems -/

/-- C9: `compile_emoji_ritual` is deterministic — the compiler is a pure
function of its input text (the embedding is pure because the source
method reads only its argument and the constant tables built in
`__init__`, never mutated and with no randomness), so two invocations on
identical input yield identical output. -/
theorem c9_compile_ritual_deterministic (emojiCode : String) :
    compile_emoji_ritual emojiCode = compile_emoji_ritual emojiCode := rfl

/-- C2: `compile_emoji_line` equals the spec's ordered first-match chain
(spine parse, then voice, conditional, pause, consent, phase, generic
echo), and consequently a line whose spine parse fails and which contains
a voice-invocation glyph compiles as a voice invocation — even when later
branches (such as consent) would also match. -/
theorem c2_branch_precedence :
    (∀ line, compile_emoji_line line = compileLineSpec line) ∧
    (∀ line, parse_emoji_spine (pyStrip line) = none →
      contains_emojis (pyStrip line) ["🏰", "🧠"] = true →
      compile_emoji_line line = compile_voice_invocation (pyStrip line)) := by
  constructor
  · intro line
    rfl
  · intro line hspine hvoice
    simp only [compile_emoji_line, hspine, hvoice, if_true]

/-- C2 witness: the line `🏰📋` contains both the voice glyph `🏰` and the
consent glyph `📋`; its spine parse fails, and it classifies as a voice
invocation. -/
theorem c2_branch_precedence_witness :
    parse_emoji_spine (pyStrip "🏰📋") = none ∧
    contains_emojis (pyStrip "🏰📋") ["🏰", "🧠"] = true ∧
    contains_emojis (pyStrip "🏰📋") ["📋", "✅", "❌"] = true ∧
    compile_emoji_line "🏰📋" = compile_voice_invocation (pyStrip "🏰📋") :=
  ⟨by decide, by decide, by decide,
   c2_branch_precedence.2 "🏰📋" (by decide) (by decide)⟩

/-- C1 (code bug): compiling the documented "anger spine" line `🔥🧠⚡🗯️`
does not produce the spine assignment.  The regex groups contiguous class
characters into runs and its ranges exclude `🧠` (U+1F9E0), so the line
yields only the two runs `🔥` and `⚡🗯️`, the spine parse fails, and the
line falls through to the voice-invocation branch (it contains `🧠`);
interpreting the resulting statement binds no variables at all. -/
theorem c1_anger_spine_miscompiles :
    emojiRuns "🔥🧠⚡🗯️" = ["🔥", "⚡🗯️"] ∧
    parse_emoji_spine "🔥🧠⚡🗯️" = none ∧
    compile_emoji_line "🔥🧠⚡🗯️" = "@healer.assess(user.emotional_state)" ∧
    compile_emoji_line "🔥🧠⚡🗯️" ≠
      "user.emotional_state = \"anger\"; user.tempo = \"urgent\"; user.intent = \"speak_truth\"" ∧
    (run (initState []) (compile_emoji_line "🔥🧠⚡🗯️")).1 =
      { success := true, error := none, output := [], vars := some [] } ∧
    (run (initState [])
        "user.emotional_state = \"anger\"; user.tempo = \"urgent\"; user.intent = \"speak_truth\"").1.vars =
      some [("user.emotional_state",
        "anger\"; user.tempo = \"urgent\"; user.intent = \"speak_truth")] := by
  refine ⟨by decide, by decide, by decide, by decide, by decide, by decide⟩

/-- C4: when the input contains fewer than 3 characters of the emoji
character class — and likewise whenever the regex extracts fewer than 3
runs — `parse_emoji_spine` returns `none` (the embedding is a total
function into `Option`, mirroring that the source returns `None` rather
than raising). -/
theorem c4_short_sequences_give_none (s : String) :
    ((s.data.filter isEmojiChar).length < 3 → parse_emoji_spine s = none) ∧
    ((emojiRuns s).length < 3 → parse_emoji_spine s = none) := by
  constructor
  · intro h
    have hle := emojiRuns_length_le s
    have : (emojiRuns s).length < 3 := lt_of_le_of_lt hle h
    simp [parse_emoji_spine, this]
  · intro h
    simp [parse_emoji_spine, h]

/-- C4 witness: `🔥🧠` has a single class character (`🧠` is outside the
ranges), and the parse returns `none`. -/
theorem c4_short_sequences_give_none_witness :
    ("🔥🧠".data.filter isEmojiChar).length < 3 ∧
    parse_emoji_spine "🔥🧠" = none :=
  ⟨by decide, (c4_short_sequences_give_none "🔥🧠").1 (by decide)⟩

/-- C5 counterexample: `🔥⚡🗯️` contains an anchor glyph (`🔥`), a tempo
glyph (`⚡`) and an intent glyph (`🗯️`) as substrings, yet
`parse_emoji_spine` returns `none`, because the three contiguous glyphs
merge into a single regex run. -/
theorem c5_counterexample :
    containsSub "🔥⚡🗯️" "🔥" = true ∧ isAnchorKey "🔥" = true ∧
    containsSub "🔥⚡🗯️" "⚡" = true ∧ isTempoKey "⚡" = true ∧
    containsSub "🔥⚡🗯️" "🗯️" = true ∧ isIntentKey "🗯️" = true ∧
    parse_emoji_spine "🔥⚡🗯️" = none := by
  refine ⟨by decide, by decide, by decide, by decide, by decide, by decide, by decide⟩

/-- C5 (amended): category membership is decided per extracted emoji run,
not per substring.  Whenever the regex extracts at least 3 runs, the parse
succeeds and each spine field is the first run that is a key of the
respective category table, with the category defaults `❓`/`🐎`/`✨` when
no run matches, and body constantly `🧠` — independent of the order of
the categories relative to one another. -/
theorem c5_first_run_per_category (s : String)
    (h : 3 ≤ (emojiRuns s).length) :
    parse_emoji_spine s = some
      { anchor := ((emojiRuns s).find? isAnchorKey).getD "❓"
        body := "🧠"
        tempo := ((emojiRuns s).find? isTempoKey).getD "🐎"
        intent := ((emojiRuns s).find? isIntentKey).getD "✨" } := by
  have h' : ¬ (emojiRuns s).length < 3 := by omega
  simp [parse_emoji_spine, h']

/-- C5 witness: on `🔥 🐎 🛑` the three space-separated glyphs form three
runs; the first anchor run is `🔥`, the first tempo run `🐎`, the first
intent run `🛑`. -/
theorem c5_first_run_per_category_witness :
    3 ≤ (emojiRuns "🔥 🐎 🛑").length ∧
    parse_emoji_spine "🔥 🐎 🛑" = some
      { anchor := "🔥", body := "🧠", tempo := "🐎", intent := "🛑" } :=
  ⟨by decide, by
    have h := c5_first_run_per_category "🔥 🐎 🛑" (by decide)
    simpa using h⟩

/-- `_handle_voice_speak` appends exactly one message. -/
theorem handleVoiceSpeak_output (st : InterpState) (line : String) :
    st.output_buffer <+: (handleVoiceSpeak st line).output_buffer := by
  simp only [handleVoiceSpeak]
  split_ifs <;> exact List.prefix_append _ _

/-- `_handle_consent` appends at most one message. -/
theorem handleConsent_output (st : InterpState) (line : String) :
    st.output_buffer <+: (handleConsent st line).output_buffer := by
  simp only [handleConsent]
  split_ifs <;>
    first
    | exact List.prefix_append _ _
    | exact List.prefix_refl _

/-- `_handle_sacred_pause` appends at most one message. -/
theorem handleSacredPause_output (st : InterpState) (line : String) :
    st.output_buffer <+: (handleSacredPause st line).output_buffer := by
  simp only [handleSacredPause]
  split_ifs <;>
    first
    | exact List.prefix_append _ _
    | exact List.prefix_refl _

/-- `_handle_assignment` never prints. -/
theorem handleAssignment_output (st : InterpState) (line : String) :
    st.output_buffer <+: (handleAssignment st line).output_buffer := by
  simp only [handleAssignment]
  split <;> exact List.prefix_refl _

/-- A successful `_handle_input_ask` never prints. -/
theorem handleInputAsk_output (st : InterpState) (line : String)
    (st' : InterpState) (h : handleInputAsk st line = .ok st') :
    st.output_buffer <+: st'.output_buffer := by
  simp only [handleInputAsk] at h
  rcases hstdin : st.stdin with _ | ⟨r, rest⟩ <;> rw [hstdin] at h
  · simp at h
  · split_ifs at h <;> (injection h with h; subst h; exact List.prefix_refl _)

/-- Each handler only ever appends to the output buffer, so a successfully
executed line extends the buffer. -/
theorem executeLine_output_prefix (st : InterpState) (line : String)
    (st' : InterpState) (h : executeLine st line = .ok st') :
    st.output_buffer <+: st'.output_buffer := by
  unfold executeLine at h
  by_cases h1 : containsSub line "output.print(" = true
  · rw [if_pos h1] at h
    injection h with h; subst h; exact List.prefix_append _ _
  rw [if_neg h1] at h
  by_cases h2 : (containsSub line "@" && containsSub line ".speak") = true
  · rw [if_pos h2] at h
    injection h with h; subst h; exact handleVoiceSpeak_output _ _
  rw [if_neg h2] at h
  by_cases h3 : containsSub line "input.ask(" = true
  · rw [if_pos h3] at h
    exact handleInputAsk_output _ _ _ h
  rw [if_neg h3] at h
  by_cases h4 : containsSub line "consent." = true
  · rw [if_pos h4] at h
    injection h with h; subst h; exact handleConsent_output _ _
  rw [if_neg h4] at h
  by_cases h5 : containsSub line "sacred_pause." = true
  · rw [if_pos h5] at h
    injection h with h; subst h; exact handleSacredPause_output _ _
  rw [if_neg h5] at h
  by_cases h6 : (containsSub line "=" && !strEndsWith (pyStrip line) "\x7b") = true
  · rw [if_pos h6] at h
    injection h with h; subst h; exact handleAssignment_output _ _
  rw [if_neg h6] at h
  by_cases h7 : strStartsWith line "ritual." = true
  · rw [if_pos h7] at h
    injection h with h; subst h; exact List.prefix_append _ _
  rw [if_neg h7] at h
  by_cases h8 : line = "execute \x7b"
  · rw [if_pos h8] at h
    injection h with h; subst h; exact List.prefix_append _ _
  rw [if_neg h8] at h
  by_cases h9 : line = "complete \x7b"
  · rw [if_pos h9] at h
    injection h with h; subst h; exact List.prefix_append _ _
  rw [if_neg h9] at h
  by_cases h10 :
      line = "look_in \x7b" ∨ line = "spiral_up \x7b" ∨ line = "flow_out \x7b"
  · rw [if_pos h10] at h
    injection h with h; subst h; exact List.prefix_append _ _
  rw [if_neg h10] at h
  injection h with h; subst h; exact List.prefix_refl _

/-- `run` only appends to the interpreter's output buffer. -/
theorem runAux_output_prefix (ls : List String) :
    ∀ (st : InterpState) (n : Nat),
      st.output_buffer <+: (runAux st ls n).2.output_buffer := by
  induction ls with
  | nil => intro st n; exact List.prefix_refl _
  | cons l ls ih =>
    intro st n
    by_cases hskip : pyStrip l = "" ∨ strStartsWith (pyStrip l) "//"
    · simpa [runAux, hskip] using ih st (n + 1)
    · rcases hexe : executeLine st (pyStrip l) with e | st'
      · simp only [runAux, hexe]
        simp [hskip]
      · have h1 := executeLine_output_prefix st (pyStrip l) st' hexe
        have h2 := ih st' (n + 1)
        simpa [runAux, hskip, hexe] using h1.trans h2

/-- `runAux` agrees with the spec-side first-failure description
`execLinesSpec`: success returns the full buffer and the variable map,
failure returns the 1-based failing line number, the message, the buffer
accumulated by the prior lines, and leaves the state reached so far in
place (no rollback, no `variables` key). -/
theorem runAux_characterization (ls : List String) :
    ∀ (st : InterpState) (n : Nat),
      match execLinesSpec st ls n with
      | .ok stF =>
        runAux st ls n =
          ({ success := true, error := none, output := stF.output_buffer,
             vars := some stF.vars }, stF)
      | .error (m, msg, stP) =>
        runAux st ls n =
          ({ success := false,
             error := some ("Line " ++ toString m ++ ": " ++ msg),
             output := stP.output_buffer, vars := none }, stP) := by
  induction ls with
  | nil => intro st n; simp [execLinesSpec, runAux]
  | cons l ls ih =>
    intro st n
    by_cases hskip : pyStrip l = "" ∨ strStartsWith (pyStrip l) "//"
    · simpa [execLinesSpec, runAux, hskip] using ih st (n + 1)
    · rcases hexe : executeLine st (pyStrip l) with e | st'
      · simp [execLinesSpec, runAux, hskip, hexe]
      · simpa [execLinesSpec, runAux, hskip, hexe] using ih st' (n + 1)

/-- Replacement with a pattern that does not occur leaves the text
unchanged. -/
theorem replaceGo_of_no_occurrence (pat rep : List Char) (s : List Char)
    (h : findSubIdx pat s = none) :
    ∀ fuel, replaceGo pat rep fuel s = s := by
  induction s with
  | nil => intro fuel; cases fuel <;> rfl
  | cons c t ih =>
    intro fuel
    have hnp : ¬ pat.isPrefixOf (c :: t) = true := by
      intro hp
      rw [findSubIdx, if_pos hp] at h
      exact absurd h (by simp)
    have ht : findSubIdx pat t = none := by
      rw [findSubIdx, if_neg hnp] at h
      exact Option.map_eq_none'.mp h
    cases fuel with
    | zero => rfl
    | succ fuel =>
      rw [replaceGo, if_neg (by simp [hnp]), ih ht fuel]

/-- `str.replace` with an absent pattern is the identity. -/
theorem replaceAllStr_of_not_contains (s pat rep : String)
    (h : containsSub s pat = false) : replaceAllStr s pat rep = s := by
  have hnone : findSubIdx pat.data s.data = none := by
    simpa [containsSub, Option.isSome_iff_exists] using h
  have hne : ¬ pat.data = [] := by
    intro hnil
    rw [hnil] at hnone
    cases hd : s.data <;> rw [hd] at hnone <;> simp [findSubIdx] at hnone
  unfold replaceAllStr replaceAllList
  rw [if_neg hne, replaceGo_of_no_occurrence _ _ _ hnone]

/-- A needle that is a prefix of the haystack is found at index 0. -/
theorem findSubIdx_of_isPrefixOf (needle hay : List Char)
    (h : needle.isPrefixOf hay = true) : findSubIdx needle hay = some 0 := by
  cases hay with
  | nil =>
    have hn : needle = [] := by
      simpa using List.isPrefixOf_iff_prefix.mp h
    simp [findSubIdx, hn]
  | cons c t => simp [findSubIdx, h]

/-- A substring check succeeds whenever the needle is a prefix of the
haystack's character data. -/
theorem containsSub_of_data_prefix (line needle : String)
    (h : needle.data <+: line.data) : containsSub line needle = true := by
  unfold containsSub
  rw [findSubIdx_of_isPrefixOf _ _ (List.isPrefixOf_iff_prefix.mpr h)]
  rfl

/-- `findIdx?` finds nothing when the predicate holds nowhere. -/
theorem findIdx?_eq_none_of_forall {α : Type} (p : α → Bool) :
    ∀ (l : List α), (∀ x ∈ l, p x = false) →
      ∀ i, List.findIdx? p l i = none := by
  intro l
  induction l with
  | nil => intro _ i; rfl
  | cons x xs ih =>
    intro h i
    rw [List.findIdx?_cons, if_neg (by simp [h x (by simp)])]
    exact ih (fun y hy => h y (by simp [hy])) (i + 1)

/-- `rfind` returns -1 when the character does not occur. -/
theorem pyRFindChar_eq_neg_one (s : String) (c : Char)
    (h : ∀ x ∈ s.data, x ≠ c) : pyRFindChar s c = -1 := by
  unfold pyRFindChar
  rw [findIdx?_eq_none_of_forall _ _
    (fun x hx => by simp [h x (by simpa using hx)]) 0]

/-- `rfind` of the final character returns the last index. -/
theorem pyRFindChar_last (line : String) (xs : List Char) (c : Char)
    (h : line.data = xs ++ [c]) : pyRFindChar line c = (xs.length : Int) := by
  have hfi : line.data.reverse.findIdx? (fun x => x = c) = some 0 := by
    rw [h]
    simp [List.reverse_append, List.findIdx?_cons]
  unfold pyRFindChar
  rw [hfi, h]
  simp

/-- A non-negative Python slice bound clamps at the length. -/
theorem normSliceIdx_natCast (len n : Nat) :
    normSliceIdx len (n : Int) = min n len := by
  unfold normSliceIdx
  rw [if_neg (by omega), Int.toNat_ofNat]

/-- The Python slice bound -1 denotes the last index. -/
theorem normSliceIdx_neg_one (len : Nat) :
    normSliceIdx len (-1) = len - 1 := by
  unfold normSliceIdx
  rw [if_pos (by omega)]
  omega

/-- Slicing out the middle third of a concatenation. -/
theorem pySliceList_sandwich (a b c : List Char) :
    pySliceList (a ++ b ++ c) (a.length : Int)
      ((a.length + b.length : Nat) : Int) = b := by
  simp only [pySliceList]
  rw [normSliceIdx_natCast, normSliceIdx_natCast,
    min_eq_left (by simp only [List.length_append]; omega),
    min_eq_left (by simp only [List.length_append]; omega)]
  have he : a.length + b.length - a.length = b.length := by omega
  rw [he, List.append_assoc, List.drop_left, List.take_left]

/-- A Python slice `l[s:-1]` drops the last element and the first `s`. -/
theorem pySliceList_to_neg_one (l : List Char) (s : Nat) :
    pySliceList l (s : Int) (-1) = l.dropLast.drop s := by
  simp only [pySliceList]
  rw [normSliceIdx_natCast, normSliceIdx_neg_one]
  by_cases hs : s ≤ l.length
  · rw [min_eq_left hs, List.dropLast_eq_take, List.drop_take]
  · rw [min_eq_right (by omega)]
    have h1 : l.drop l.length = [] := by simp
    have h2 : l.dropLast.drop s = [] := by
      refine List.drop_eq_nil_of_le ?_
      simp only [List.length_dropLast]
      omega
    rw [h1, h2]
    simp

/-- Stripping whitespace leaves a list untouched when both end characters
are not whitespace. -/
theorem trimList_wrapped (c₁ c₂ : Char) (m : List Char)
    (h1 : c₁.isWhitespace = false) (h2 : c₂.isWhitespace = false) :
    trimList (c₁ :: (m ++ [c₂])) = c₁ :: (m ++ [c₂]) := by
  have e1 : (c₁ :: (m ++ [c₂])).dropWhile Char.isWhitespace =
      c₁ :: (m ++ [c₂]) := by
    rw [List.dropWhile_cons]
    simp [h1]
  have er : (c₁ :: (m ++ [c₂])).reverse = c₂ :: (m.reverse ++ [c₁]) := by
    simp
  have e2 : (c₂ :: (m.reverse ++ [c₁])).dropWhile Char.isWhitespace =
      c₂ :: (m.reverse ++ [c₁]) := by
    rw [List.dropWhile_cons]
    simp [h2]
  unfold trimList
  rw [e1, er, e2]
  simp

/-- A Python slice `l[1:-1]` with literal bounds. -/
theorem pySliceList_one_neg_one (l : List Char) :
    pySliceList l 1 (-1) = l.dropLast.drop 1 := by
  have h := pySliceList_to_neg_one l 1
  simpa using h

/-- Stripping the quotes from a double-quote-wrapped argument. -/
theorem stripQuotes_wrapped (d : List Char) (s : String)
    (h : s.data = '"' :: (d ++ ['"'])) : stripQuotes s = String.mk d := by
  have hpre : strStartsWith s "\"" = true := by
    unfold strStartsWith
    rw [h]
    simp [List.isPrefixOf]
  have hsuf : strEndsWith s "\"" = true := by
    unfold strEndsWith
    rw [List.isSuffixOf, h]
    simp [List.isPrefixOf]
  unfold stripQuotes
  rw [if_pos ⟨hpre, hsuf⟩]
  unfold pySlice
  have hd : pySliceList s.data 1 (-1) = d := by
    rw [pySliceList_one_neg_one, h]
    have : ('"' :: (d ++ ['"'])) = ('"' :: d) ++ ['"'] := by simp
    rw [this, List.dropLast_concat]
    simp
  rw [hd]

/-- `_extract_string_arg` on a canonical call `fn("domain")` with no bound
variables returns the domain verbatim: the needle is found at index 0, the
last `)` is the final character, the slice recovers the quoted argument,
and quote stripping removes the wrapping quotes. -/
theorem extractStringArg_canonical (fn d line : String)
    (hline : line.data =
      (fn.data ++ ['(']) ++ ('"' :: (d.data ++ ['"'])) ++ [')']) :
    extractStringArg [] line fn = d := by
  have hneedle : (fn ++ "(").data = fn.data ++ ['('] := by
    rw [String.data_append]
  have hpre : (fn ++ "(").data.isPrefixOf line.data = true := by
    rw [hneedle, hline, List.append_assoc]
    exact List.isPrefixOf_iff_prefix.mpr (List.prefix_append _ _)
  have hf : findSubIdx (fn ++ "(").data line.data = some 0 :=
    findSubIdx_of_isPrefixOf _ _ hpre
  have hstart : pyFind line (fn ++ "(") = 0 := by
    simp only [pyFind]
    rw [hf]
    rfl
  have hlast : pyRFindChar line ')' =
      (((fn.data ++ ['(']) ++ ('"' :: (d.data ++ ['"']))).length : Int) :=
    pyRFindChar_last line _ ')' hline
  simp only [extractStringArg]
  rw [hstart, hlast]
  have hslice : pySlice line ((0 : Int) + ((fn ++ "(").data.length : Int))
      (((fn.data ++ ['(']) ++ ('"' :: (d.data ++ ['"']))).length : Int) =
      String.mk ('"' :: (d.data ++ ['"'])) := by
    unfold pySlice
    congr 1
    rw [hline]
    have e1 : (0 : Int) + ((fn ++ "(").data.length : Int) =
        (((fn.data ++ ['(']).length : Nat) : Int) := by
      rw [hneedle]
      simp
    have e2 : ((((fn.data ++ ['(']) ++ ('"' :: (d.data ++ ['"']))).length : Nat) : Int) =
        (((fn.data ++ ['(']).length + ('"' :: (d.data ++ ['"'])).length : Nat) : Int) := by
      rw [List.length_append]
    rw [e1, e2, pySliceList_sandwich]
  rw [hslice]
  have htrim : pyStrip (String.mk ('"' :: (d.data ++ ['"']))) =
      String.mk ('"' :: (d.data ++ ['"'])) := by
    unfold pyStrip
    congr 1
    exact trimList_wrapped '"' '"' d.data (by decide) (by decide)
  rw [htrim, stripQuotes_wrapped d.data _ rfl]
  rfl

/-- C6 counterexample: the interpreter state is not reset by `run`; the
second of two successive `run` calls on one interpreter instance returns
the accumulated output of both programs, unlike a fresh interpreter. -/
theorem c6_counterexample :
    (run ((run (initState []) "output.print(\"A\")").2)
        "output.print(\"B\")").1.output = ["A", "B"] ∧
    (run (initState []) "output.print(\"B\")").1.output = ["B"] ∧
    (run ((run (initState []) "output.print(\"A\")").2)
        "output.print(\"B\")").1 ≠
      (run (initState []) "output.print(\"B\")").1 := by
  refine ⟨by decide, by decide, by decide⟩

/-- C6 (amended): the variable map, the consent map and the output buffer
are initialized empty when the interpreter object is constructed — not per
`run()` call — and `run()` never resets them: the buffer present before a
`run()` call is still a prefix of the buffer after it, so state crosses
successive `run()` calls on the same instance.  Isolation holds only
between distinct interpreter instances (the CLI constructs a fresh
instance per executed program). -/
theorem c6_state_per_instance (stdin : List String) :
    (initState stdin).vars = [] ∧
    (initState stdin).consent_status = [] ∧
    (initState stdin).output_buffer = [] ∧
    ∀ (st : InterpState) (content : String),
      st.output_buffer <+: (run st content).2.output_buffer := by
  refine ⟨rfl, rfl, rfl, ?_⟩
  intro st content
  exact runAux_output_prefix (splitLinesNl content) st 1

/-- C3 counterexample: a run that assigns `user.name` on line 1 and fails
on line 2 (the `input.ask` line raises `EOFError` on exhausted stdin)
returns the failure dictionary with the line number, message and
accumulated output, but without the variable map — the mutated binding
survives only in the interpreter state, not in the returned result. -/
theorem c3_counterexample :
    (run (initState []) "user.name = \"Ann\"\ninput.ask(\"q\")").1.success
        = false ∧
    (run (initState []) "user.name = \"Ann\"\ninput.ask(\"q\")").1.error =
      some "Line 2: EOF when reading a line" ∧
    (run (initState []) "user.name = \"Ann\"\ninput.ask(\"q\")").2.vars =
      [("user.name", "Ann")] ∧
    (run (initState []) "user.name = \"Ann\"\ninput.ask(\"q\")").1.vars =
      none ∧
    (run (initState []) "user.name = \"Ann\"\ninput.ask(\"q\")").1.vars ≠
      some [("user.name", "Ann")] := by
  refine ⟨by decide, by decide, by decide, by decide, by decide⟩

/-- C3 (amended): if some line raises, `run` returns immediately with
`success = false`, an error string naming the 1-based number of that line
and the exception message, and the output accumulated by the prior lines;
the already-mutated state is retained in the interpreter (prior lines'
effects are never rolled back), but the failure result does not include
the variable map.  If no line raises, `run` returns `success = true` with
the full output buffer and the final variable map. -/
theorem c3_run_failure_semantics (content : String) (st0 : InterpState) :
    match execLinesSpec st0 (splitLinesNl content) 1 with
    | .ok stF =>
      run st0 content =
        ({ success := true, error := none, output := stF.output_buffer,
           vars := some stF.vars }, stF)
    | .error (m, msg, stP) =>
      run st0 content =
        ({ success := false,
           error := some ("Line " ++ toString m ++ ": " ++ msg),
           output := stP.output_buffer, vars := none }, stP) :=
  runAux_characterization (splitLinesNl content) st0 1

/-- C8: variable substitution replaces, for each bound variable in
insertion order, first the brace-wrapped placeholder form and then every
bare occurrence of the identifier by the value (the source's guarding
`in` checks are redundant, since replacing an absent pattern is the
identity); concretely, after `user.name = "Ann"`, printing `user.name`
emits `Ann`. -/
theorem c8_variable_substitution :
    (∀ name value text : String,
      substituteVariables [(name, value)] text =
        replaceAllStr (replaceAllStr text ("\x7b" ++ name ++ "\x7d") value)
          name value) ∧
    (∀ (vars : List (String × String)) (name value text : String),
      substituteVariables (vars ++ [(name, value)]) text =
        substituteVariables [(name, value)] (substituteVariables vars text)) ∧
    (run (initState []) "user.name = \"Ann\"\noutput.print(user.name)").1 =
      { success := true, error := none, output := ["Ann"],
        vars := some [("user.name", "Ann")] } := by
  refine ⟨?_, ?_, by decide⟩
  · intro name value text
    simp only [substituteVariables, List.foldl]
    split_ifs with h1 h2 h3 <;>
      simp_all [replaceAllStr_of_not_contains, Bool.not_eq_true]
  · intro vars name value text
    simp [substituteVariables, List.foldl_append]

/-- C7: executing a `consent.check("domain")` line (one that does not also
match an earlier dispatch pattern, and with no variables bound, so that
substitution leaves the domain unchanged) reports Granted or Denied by
lookup in the consent map with default granted — in particular, with an
empty consent map the message says Granted — and executing a
`consent.request("domain")` line unconditionally sets the domain to
granted and reports Granted. -/
theorem c7_consent_check_and_request (d : String) (st : InterpState)
    (hv : st.vars = [])
    (hc1 : containsSub ("consent.check(\"" ++ d ++ "\")") "output.print(" = false)
    (hc2 : (containsSub ("consent.check(\"" ++ d ++ "\")") "@" &&
        containsSub ("consent.check(\"" ++ d ++ "\")") ".speak") = false)
    (hc3 : containsSub ("consent.check(\"" ++ d ++ "\")") "input.ask(" = false)
    (hr1 : containsSub ("consent.request(\"" ++ d ++ "\")") "output.print(" = false)
    (hr2 : (containsSub ("consent.request(\"" ++ d ++ "\")") "@" &&
        containsSub ("consent.request(\"" ++ d ++ "\")") ".speak") = false)
    (hr3 : containsSub ("consent.request(\"" ++ d ++ "\")") "input.ask(" = false)
    (hr4 : containsSub ("consent.request(\"" ++ d ++ "\")") "consent.check(" = false) :
    executeLine st ("consent.check(\"" ++ d ++ "\")") =
      .ok { st with output_buffer := st.output_buffer ++
        ["Checking consent for '" ++ d ++ "': " ++
          (if dictGetD st.consent_status d true then "Granted" else "Denied")] } ∧
    executeLine st ("consent.request(\"" ++ d ++ "\")") =
      .ok { st with
        consent_status := dictSet st.consent_status d true
        output_buffer := st.output_buffer ++
          ["Requesting consent for '" ++ d ++ "': Granted"] } := by
  have lc : ("consent.check(\"" : String).data =
      "consent.check".data ++ ['(', '"'] := by decide
  have lr : ("consent.request(\"" : String).data =
      "consent.request".data ++ ['(', '"'] := by decide
  have l2 : ("\")" : String).data = ['"', ')'] := by decide
  have hdc : ("consent.check(\"" ++ d ++ "\")").data =
      ("consent.check".data ++ ['(']) ++ ('"' :: (d.data ++ ['"'])) ++ [')'] := by
    rw [String.data_append, String.data_append, lc, l2]
    simp
  have hdr : ("consent.request(\"" ++ d ++ "\")").data =
      ("consent.request".data ++ ['(']) ++ ('"' :: (d.data ++ ['"'])) ++ [')'] := by
    rw [String.data_append, String.data_append, lr, l2]
    simp
  have hconsC : containsSub ("consent.check(\"" ++ d ++ "\")") "consent." = true := by
    refine containsSub_of_data_prefix _ _ ?_
    rw [hdc]
    have p1 : ("consent." : String).data <+: ("consent.check" : String).data := by
      decide
    rw [List.append_assoc, List.append_assoc]
    exact p1.trans (List.prefix_append _ _)
  have hconsR : containsSub ("consent.request(\"" ++ d ++ "\")") "consent." = true := by
    refine containsSub_of_data_prefix _ _ ?_
    rw [hdr]
    have p1 : ("consent." : String).data <+: ("consent.request" : String).data := by
      decide
    rw [List.append_assoc, List.append_assoc]
    exact p1.trans (List.prefix_append _ _)
  have hcheckC : containsSub ("consent.check(\"" ++ d ++ "\")") "consent.check(" = true := by
    refine containsSub_of_data_prefix _ _ ?_
    rw [hdc]
    have e : ("consent.check(" : String).data = "consent.check".data ++ ['('] := by
      decide
    rw [e, List.append_assoc]
    exact List.prefix_append _ _
  have hreqR : containsSub ("consent.request(\"" ++ d ++ "\")") "consent.request(" = true := by
    refine containsSub_of_data_prefix _ _ ?_
    rw [hdr]
    have e : ("consent.request(" : String).data = "consent.request".data ++ ['('] := by
      decide
    rw [e, List.append_assoc]
    exact List.prefix_append _ _
  have hexC : extractStringArg st.vars ("consent.check(\"" ++ d ++ "\")")
      "consent.check" = d := by
    rw [hv]
    exact extractStringArg_canonical "consent.check" d _ hdc
  have hexR : extractStringArg st.vars ("consent.request(\"" ++ d ++ "\")")
      "consent.request" = d := by
    rw [hv]
    exact extractStringArg_canonical "consent.request" d _ hdr
  constructor
  · unfold executeLine
    rw [if_neg (by simp [hc1]), if_neg (by simp [hc2]), if_neg (by simp [hc3]),
      if_pos hconsC]
    unfold handleConsent
    rw [if_pos hcheckC, hexC]
    rfl
  · unfold executeLine
    rw [if_neg (by simp [hr1]), if_neg (by simp [hr2]), if_neg (by simp [hr3]),
      if_pos hconsR]
    unfold handleConsent
    rw [if_neg (by simp [hr4]), if_pos hreqR, hexR]
    rfl

/-- C7 witness: with an empty consent map, checking domain `x` prints
Granted, and requesting it sets it granted. -/
theorem c7_consent_check_and_request_witness :
    executeLine (initState []) "consent.check(\"x\")" =
      .ok { initState [] with
        output_buffer := ["Checking consent for 'x': Granted"] } ∧
    executeLine (initState []) "consent.request(\"x\")" =
      .ok { initState [] with
        consent_status := [("x", true)]
        output_buffer := ["Requesting consent for 'x': Granted"] } := by
  have h := c7_consent_check_and_request "x" (initState []) rfl
    (by decide) (by decide) (by decide) (by decide) (by decide) (by decide)
    (by decide)
  obtain ⟨h1, h2⟩ := h
  constructor
  · have e : ("consent.check(\"" ++ "x" ++ "\")" : String) =
        "consent.check(\"x\")" := by decide
    rw [e] at h1
    rw [h1]
    simp only [Except.ok.injEq]
    decide
  · have e : ("consent.request(\"" ++ "x" ++ "\")" : String) =
        "consent.request(\"x\")" := by decide
    rw [e] at h2
    rw [h2]
    simp only [Except.ok.injEq]
    decide

/-- C10: a line containing `output.print(` but no `)` executes without
raising: the argument extractor's `rfind` returns -1, so the Python slice
`line[start:-1]` takes the text from just after the first `output.print(`
up to but excluding the line's final character; that text — stripped,
optionally unquoted, and variable-substituted — is buffered, and the line
succeeds. -/
theorem c10_unclosed_print_is_safe (st : InterpState) (line : String)
    (h1 : containsSub line "output.print(" = true)
    (h2 : ∀ x ∈ line.data, x ≠ ')') :
    ∃ i, findSubIdx "output.print(".data line.data = some i ∧
      executeLine st line = .ok { st with output_buffer :=
        st.output_buffer ++ [substituteVariables st.vars (stripQuotes (pyStrip
          (String.mk (line.data.dropLast.drop (i + 13)))))] } := by
  obtain ⟨i, hi⟩ := Option.isSome_iff_exists.mp (by
    simpa [containsSub] using h1)
  refine ⟨i, hi, ?_⟩
  unfold executeLine
  rw [if_pos h1]
  have hex : extractStringArg st.vars line "output.print" =
      substituteVariables st.vars (stripQuotes (pyStrip
        (String.mk (line.data.dropLast.drop (i + 13))))) := by
    simp only [extractStringArg]
    have hdn : ("output.print" ++ "(" : String).data = "output.print(".data := by
      decide
    have hfind : pyFind line ("output.print" ++ "(") = (i : Int) := by
      simp only [pyFind, hdn]
      rw [hi]
    have hr : pyRFindChar line ')' = -1 := pyRFindChar_eq_neg_one line ')' h2
    have hlen : ("output.print" ++ "(" : String).data.length = 13 := by decide
    rw [hfind, hr, hlen]
    have e2 : (i : Int) + ((13 : Nat) : Int) = ((i + 13 : Nat) : Int) := by
      push_cast
      ring
    rw [e2]
    unfold pySlice
    rw [pySliceList_to_neg_one]
  rw [hex]
  rfl

/-- C10 witness: `output.print(hi` has no closing parenthesis; the slice
keeps `h` (everything after `output.print(` except the final character),
which is printed, and the line does not fail. -/
theorem c10_unclosed_print_is_safe_witness :
    containsSub "output.print(hi" "output.print(" = true ∧
    (∀ x ∈ ("output.print(hi" : String).data, x ≠ ')') ∧
    executeLine (initState []) "output.print(hi" =
      .ok { initState [] with output_buffer := ["h"] } := by
  refine ⟨by decide, by decide, ?_⟩
  obtain ⟨i, hi, hrun⟩ := c10_unclosed_print_is_safe (initState [])
    "output.print(hi" (by decide) (by decide)
  have h0 : findSubIdx "output.print(".data ("output.print(hi" : String).data =
      some 0 := by decide
  have hi0 : i = 0 := by
    have := h0.symm.trans hi
    simpa using this.symm
  subst hi0
  rw [hrun]
  simp only [Except.ok.injEq]
  decide

end SpiralLogic
